import Mathlib

/-
Shallow embedding of `src/diffusion/denoise_diffusion.py`.

The file models the two training-time diffusion classes of the repository:
`DenoiseDiffusion` (the base process) and `DMDenoiseDiffusion` (the
trajectory / decision-making variant).  Tensors of shape
`[batch, *data_shape]` are embedded as functions `Fin b → ι → ℝ` with an
arbitrary data-index type `ι` (rank-generic, matching broadcasting over
arbitrary trailing dimensions).  Conditioning tensors of shape
`[batch, cond_dim]` are embedded as `Fin b → List ℝ`, so that concatenating
the trajectory flag along the last axis is list append.  The randomness of a
`loss` call (the per-element timestep `t`, the Gaussian noise `eps`, the
Bernoulli keep-mask) is passed in explicitly; the noise predictor
(`eps_model`) is an opaque function argument.  A Python call that raises
before the predictor is ever invoked (e.g. an operation on `cond = None`)
is embedded as `Option.none`.
-/

namespace DenoiseDiffusionModel

/-- The opaque noise-predictor handle (`models.UNet`): the only part of it
this core reads is the `use_cond` capability flag. -/
structure EpsModel where
  use_cond : Bool

/-- Error taxonomy of the construction and loss paths: the construction-time
assert on `uncond_prob` presence vs `use_cond` (spec: `ConditioningConfigError`),
the unknown `beta_schedule` branch (spec: `UnsupportedScheduleError`), and the
unknown `loss_type` branch (spec: `UnsupportedLossError`). -/
inductive DiffusionError where
  | conditioningCfg : DiffusionError
  | unsupportedSchedule : String → DiffusionError
  | unsupportedLoss : String → DiffusionError
deriving DecidableEq

/-- The state a constructed `DenoiseDiffusion` object holds that the loss
path reads: the predictor capability flag, the dropout probability, the step
count `T`, the loss kind, and the beta schedule produced at construction. -/
structure Process where
  use_cond : Bool
  uncond_prob : Option ℝ
  T : ℕ
  loss_type : String
  betas : ℕ → ℝ

/-- `DenoiseDiffusion.__init__` (lines 17-50): the assert
`(uncond_prob is not None) == eps_model.use_cond` runs first; then the
`beta_schedule` string is dispatched to one of the two external schedule
generators (passed in opaquely as `linB` / `cosB`), with `ValueError` on an
unknown kind.  `loss_type` is stored unexamined. -/
def mkDenoiseDiffusion (m : EpsModel) (uncond_prob : Option ℝ) (T : ℕ)
    (loss_type beta_schedule : String) (linB cosB : ℕ → ℝ) :
    Except DiffusionError Process :=
  if uncond_prob.isSome = m.use_cond then
    if beta_schedule = "linear" then
      .ok ⟨m.use_cond, uncond_prob, T, loss_type, linB⟩
    else if beta_schedule = "cosine" then
      .ok ⟨m.use_cond, uncond_prob, T, loss_type, cosB⟩
    else .error (.unsupportedSchedule beta_schedule)
  else .error .conditioningCfg

/-- Line 48: `self.alphas = 1 - self.betas`. -/
noncomputable def alphas (P : Process) : ℕ → ℝ :=
  fun i => 1 - P.betas i

/-- Line 49: `self.alphas_bar = torch.cumprod(self.alphas, dim=0)`, i.e.
`alphas_bar[t] = prod_(i ≤ t) alphas[i]`. -/
noncomputable def alphas_bar (P : Process) : ℕ → ℝ :=
  fun t => ∏ i ∈ Finset.range (t + 1), alphas P i

/-- Line 50: `self.alphas_bar_prev = torch.cat([ones(1), alphas_bar[:-1]])`. -/
noncomputable def alphas_bar_prev (P : Process) : ℕ → ℝ :=
  fun t => if t = 0 then 1 else alphas_bar P (t - 1)

/-- Modelled from the spec: `utils.diffusion_utils.gather` is not under
`src/`; per the spec it selects `consts` at each batch element's timestep
and broadcasts the scalar over all trailing data dimensions (the data-index
type `ι` is arbitrary, so the embedding is rank-generic). -/
def gather {b : ℕ} {ι : Type} (consts : ℕ → ℝ) (t : Fin b → ℕ) :
    Fin b → ι → ℝ :=
  fun i _ => consts (t i)

/-- `DenoiseDiffusion.q_xt_x0` (lines 61-69): the forward process
`q(x_t | x_0)`, returning the pair `(mean, std)` with
`mean = alpha_bar.sqrt() * x0` and `std = (1 - alpha_bar).sqrt()`. -/
noncomputable def q_xt_x0 {b : ℕ} {ι : Type} (P : Process)
    (x0 : Fin b → ι → ℝ) (t : Fin b → ℕ) :
    (Fin b → ι → ℝ) × (Fin b → ι → ℝ) :=
  let alpha_bar := gather (alphas_bar P) t
  (fun i d => Real.sqrt (alpha_bar i d) * x0 i d,
   fun i d => Real.sqrt (1 - alpha_bar i d))

/-- Lines 79-81 / 135-137: `xt = mean + std * eps`. -/
noncomputable def forward_xt {b : ℕ} {ι : Type} (P : Process)
    (x0 : Fin b → ι → ℝ) (t : Fin b → ℕ) (eps : Fin b → ι → ℝ) :
    Fin b → ι → ℝ :=
  fun i d => (q_xt_x0 P x0 t).1 i d + (q_xt_x0 P x0 t).2 i d * eps i d

/-- Lines 86 / 145: `cond *= uncond_mask` — the per-batch-element keep bit
`mask i` is broadcast across the conditioning components. -/
def apply_uncond_mask {b : ℕ} (mask : Fin b → ℝ) (c : Fin b → List ℝ) :
    Fin b → List ℝ :=
  fun i => (c i).map (fun v => v * mask i)

/-- Line 140: `torch.cat([cond, torch.ones(batch_size, 1)], dim=-1)` — a
constant flag 1 appended as one extra trailing component of `cond`. -/
def dmCondFlag {b : ℕ} (c : Fin b → List ℝ) : Fin b → List ℝ :=
  fun i => c i ++ [1]

/-- Everything a `loss` call hands to the noise predictor at line 87 / 146,
plus two observables the claims are about: whether the Bernoulli dropout
mask was sampled (`uncond_mask_dist.sample`, lines 85 / 144), and the
contents of the caller's `cond` buffer after the call (distinguishing the
in-place `cond *= mask` of the base class from the rebinding
`cond = torch.cat(...)` of the trajectory variant). -/
structure LossCall (b : ℕ) (ι : Type) where
  xt : Fin b → ι → ℝ
  t : Fin b → ℕ
  cond : Option (Fin b → List ℝ)
  dropoutUsed : Bool
  callerCond : Option (Fin b → List ℝ)

/-- `DenoiseDiffusion.loss` (lines 71-87) up to the predictor invocation.
When `use_cond` is set, `cond *= uncond_mask` on a `None` cond raises a
`TypeError` before the predictor runs (embedded as `none`); the in-place
multiply mutates the caller's tensor, so `callerCond` holds the masked
values.  When `use_cond` is not set, `cond` is passed through untouched. -/
noncomputable def base_loss_call {b : ℕ} {ι : Type} (P : Process)
    (x0 : Fin b → ι → ℝ) (cond : Option (Fin b → List ℝ))
    (t : Fin b → ℕ) (eps : Fin b → ι → ℝ) (mask : Fin b → ℝ) :
    Option (LossCall b ι) :=
  let xt := forward_xt P x0 t eps
  if P.use_cond then
    match cond with
    | none => none
    | some c =>
        some ⟨xt, t, some (apply_uncond_mask mask c), true,
              some (apply_uncond_mask mask c)⟩
  else
    some ⟨xt, t, cond, false, cond⟩

/-- `DMDenoiseDiffusion.loss` (lines 126-146) up to the predictor invocation,
on a present `cond`.  Trajectory data is indexed by `Fin L × κ`: the first
component is the position along the sequence axis (dim 1 of the tensor).
Line 139 `xt[:, :preserved_horizon] = x0[:, :preserved_horizon]` is the
Python slice, which clamps at the sequence length.  Line 140 appends the
flag to `cond`, rebinding the local name to a fresh tensor, so the caller's
buffer (`callerCond`) keeps its original contents. -/
noncomputable def dm_loss_call {b L : ℕ} {κ : Type} (P : Process)
    (x0 : Fin b → Fin L × κ → ℝ) (c : Fin b → List ℝ) (hzn : ℕ)
    (t : Fin b → ℕ) (eps : Fin b → Fin L × κ → ℝ) (mask : Fin b → ℝ) :
    LossCall b (Fin L × κ) :=
  let xt := forward_xt P x0 t eps
  let xtP := fun i (d : Fin L × κ) => if d.1.val < hzn then x0 i d else xt i d
  let c1 := dmCondFlag c
  if P.use_cond then
    ⟨xtP, t, some (apply_uncond_mask mask c1), true, some c⟩
  else
    ⟨xtP, t, some c1, false, some c⟩

/-- `DMDenoiseDiffusion.loss` on an optional `cond`: line 140's
`torch.cat([cond, ...])` raises a `TypeError` when `cond` is `None`, on
every call and before the `use_cond` test at line 143, so the whole call
fails before the predictor is invoked. -/
noncomputable def dm_loss_callOpt {b L : ℕ} {κ : Type} (P : Process)
    (x0 : Fin b → Fin L × κ → ℝ) (cond : Option (Fin b → List ℝ)) (hzn : ℕ)
    (t : Fin b → ℕ) (eps : Fin b → Fin L × κ → ℝ) (mask : Fin b → ℝ) :
    Option (LossCall b (Fin L × κ)) :=
  match cond with
  | none => none
  | some c => some (dm_loss_call P x0 c hzn t eps mask)

/-- Lines 89-94 / 148-153: `F.l1_loss` (mean absolute error over all
elements), `F.mse_loss` (mean squared error), `ValueError` otherwise. -/
noncomputable def reduce_loss {b : ℕ} {ι : Type} [Fintype ι]
    (loss_type : String) (pred_eps eps : Fin b → ι → ℝ) :
    Except DiffusionError ℝ :=
  if loss_type = "l1" then
    .ok ((∑ i, ∑ d, |pred_eps i d - eps i d|) / (b * Fintype.card ι))
  else if loss_type = "l2" then
    .ok ((∑ i, ∑ d, (pred_eps i d - eps i d) ^ 2) / (b * Fintype.card ι))
  else .error (.unsupportedLoss loss_type)

/-- The full `DenoiseDiffusion.loss` (lines 71-96): build the predictor
call, run the opaque predictor on `(xt, t, cond)`, reduce to a scalar. -/
noncomputable def base_loss {b : ℕ} {ι : Type} [Fintype ι] (P : Process)
    (pred : (Fin b → ι → ℝ) → (Fin b → ℕ) → Option (Fin b → List ℝ) →
            (Fin b → ι → ℝ))
    (x0 : Fin b → ι → ℝ) (cond : Option (Fin b → List ℝ))
    (t : Fin b → ℕ) (eps : Fin b → ι → ℝ) (mask : Fin b → ℝ) :
    Option (Except DiffusionError ℝ) :=
  (base_loss_call P x0 cond t eps mask).map (fun call =>
    reduce_loss P.loss_type (pred call.xt call.t call.cond) eps)

/-! Concrete instances used by witnesses and counterexamples. -/

/-- A concrete unconditional process (`use_cond = false`). -/
noncomputable def procW : Process :=
  ⟨false, none, 2, "l2", fun _ => (1 : ℝ) / 2⟩

/-- A concrete conditional process (`use_cond = true`). -/
noncomputable def procC : Process :=
  ⟨true, some ((1 : ℝ) / 4), 2, "l2", fun _ => (1 : ℝ) / 2⟩

noncomputable def x0w : Fin 1 → Fin 2 × Unit → ℝ := fun _ _ => 1

noncomputable def epsw : Fin 1 → Fin 2 × Unit → ℝ := fun _ _ => 0

def tw : Fin 1 → ℕ := fun _ => 0

noncomputable def maskw : Fin 1 → ℝ := fun _ => 1

noncomputable def maskw0 : Fin 1 → ℝ := fun _ => 0

noncomputable def cw : Fin 1 → List ℝ := fun _ => [2]

/-- A concrete constant noise predictor. -/
noncomputable def predw : (Fin 1 → Fin 2 × Unit → ℝ) → (Fin 1 → ℕ) →
    Option (Fin 1 → List ℝ) → (Fin 1 → Fin 2 × Unit → ℝ) :=
  fun _ _ _ => epsw

/-! The claims. -/

/-- C1: `q_xt_x0` returns the pair `(mean, std)` with
`mean = sqrt(alpha_bar_t) * x0` and `std = sqrt(1 - alpha_bar_t)`, where
`alpha_bar_t` is gathered per batch element and broadcast over all trailing
data dimensions for any data rank (the index type `ι` is arbitrary); it is
a pure function of `(x0, t, schedule)`. -/
theorem C1_forward_corrupt {b : ℕ} {ι : Type} (P : Process)
    (x0 : Fin b → ι → ℝ) (t : Fin b → ℕ) :
    (∀ i d, (q_xt_x0 P x0 t).1 i d = Real.sqrt (alphas_bar P (t i)) * x0 i d)
    ∧ (∀ i d, (q_xt_x0 P x0 t).2 i d = Real.sqrt (1 - alphas_bar P (t i))) :=
  ⟨fun _ _ => rfl, fun _ _ => rfl⟩

/-- C2: the schedule constants of a constructed process satisfy
`alpha_bar[0] = 1 - beta[0]`, `alpha_bar[t] = alpha_bar[t-1] * (1 - beta[t])`
for `t ≥ 1`, `alpha_bar_prev[0] = 1`, and `alpha_bar_prev[t] = alpha_bar[t-1]`
for `t ≥ 1`. -/
theorem C2_schedule_constants (P : Process) (t : ℕ) (ht : 1 ≤ t) :
    alphas_bar P 0 = 1 - P.betas 0
    ∧ alphas_bar P t = alphas_bar P (t - 1) * (1 - P.betas t)
    ∧ alphas_bar_prev P 0 = 1
    ∧ alphas_bar_prev P t = alphas_bar P (t - 1) := by
  refine ⟨?_, ?_, ?_, ?_⟩
  · simp [alphas_bar, alphas]
  · have hsucc : t - 1 + 1 = t := Nat.succ_pred_eq_of_pos ht
    calc alphas_bar P t
        = ∏ i ∈ Finset.range (t + 1), alphas P i := rfl
      _ = (∏ i ∈ Finset.range t, alphas P i) * alphas P t :=
          Finset.prod_range_succ _ _
      _ = alphas_bar P (t - 1) * (1 - P.betas t) := by
          rw [alphas_bar, hsucc]; rfl
  · simp [alphas_bar_prev]
  · have : t ≠ 0 := Nat.one_le_iff_ne_zero.mp ht
    simp [alphas_bar_prev, this]

/-- Witness for C2 at the concrete process `procW` and `t = 1`. -/
theorem C2_schedule_constants_witness :
    (1 ≤ 1)
    ∧ (alphas_bar procW 0 = 1 - procW.betas 0
       ∧ alphas_bar procW 1 = alphas_bar procW (1 - 1) * (1 - procW.betas 1)
       ∧ alphas_bar_prev procW 0 = 1
       ∧ alphas_bar_prev procW 1 = alphas_bar procW (1 - 1)) :=
  ⟨le_refl 1, C2_schedule_constants procW 1 (le_refl 1)⟩

/-- C3: in `DMDenoiseDiffusion.loss`, for every position `p` with
`p < preserved_horizon` (with `0 < preserved_horizon < L`), the noisy
tensor `xt` handed to the predictor equals `x0` exactly at position `p`
of the sequence axis, for every batch element, timestep draw and noise
draw. -/
theorem C3_preserved_positions {b L : ℕ} {κ : Type} (P : Process)
    (x0 : Fin b → Fin L × κ → ℝ) (c : Fin b → List ℝ) (hzn : ℕ)
    (t : Fin b → ℕ) (eps : Fin b → Fin L × κ → ℝ) (mask : Fin b → ℝ)
    (_h1 : 0 < hzn) (_h2 : hzn < L) (i : Fin b) (p : Fin L) (k : κ)
    (hp : p.val < hzn) :
    (dm_loss_call P x0 c hzn t eps mask).xt i (p, k) = x0 i (p, k) := by
  unfold dm_loss_call
  by_cases hu : P.use_cond <;> simp [hu, hp]

/-- Witness for C3 at a concrete batch: `b = 1`, `L = 2`,
`preserved_horizon = 1`, position `p = 0`. -/
theorem C3_preserved_positions_witness :
    (0 < 1) ∧ (1 < 2) ∧ ((0 : Fin 2).val < 1)
    ∧ (dm_loss_call procW x0w cw 1 tw epsw maskw).xt 0 (0, ()) =
        x0w 0 (0, ()) :=
  ⟨Nat.zero_lt_one, Nat.one_lt_two, Nat.zero_lt_one,
   C3_preserved_positions procW x0w cw 1 tw epsw maskw
     Nat.zero_lt_one Nat.one_lt_two 0 0 () Nat.zero_lt_one⟩

/-- C4: in `DMDenoiseDiffusion.loss` with a conditioning tensor of width
`n`, the conditioning actually passed to the predictor is the flag-augmented
masked tensor; the augmentation has exactly `n + 1` trailing components
(both before and after masking), its appended last component equals 1
before dropout masking, and for a batch element whose keep bit is 0 the
entire augmented vector at the predictor input is 0. -/
theorem C4_cond_flag {b L : ℕ} {κ : Type} (P : Process)
    (x0 : Fin b → Fin L × κ → ℝ) (c : Fin b → List ℝ) (n : ℕ) (hzn : ℕ)
    (t : Fin b → ℕ) (eps : Fin b → Fin L × κ → ℝ) (mask : Fin b → ℝ)
    (hP : P.use_cond = true) (hc : ∀ i, (c i).length = n) :
    (dm_loss_call P x0 c hzn t eps mask).cond =
        some (apply_uncond_mask mask (dmCondFlag c))
    ∧ (∀ i, (dmCondFlag c i).length = n + 1)
    ∧ (∀ i, (apply_uncond_mask mask (dmCondFlag c) i).length = n + 1)
    ∧ (∀ i, (dmCondFlag c i).getLast? = some 1)
    ∧ (∀ i, mask i = 0 →
        ∀ v ∈ apply_uncond_mask mask (dmCondFlag c) i, v = 0) := by
  refine ⟨?_, ?_, ?_, ?_, ?_⟩
  · unfold dm_loss_call
    simp [hP]
  · intro i; simp [dmCondFlag, hc]
  · intro i; simp [apply_uncond_mask, dmCondFlag, hc]
  · intro i
    simp [dmCondFlag]
  · intro i hm v hv
    simp only [apply_uncond_mask, List.mem_map] at hv
    obtain ⟨u, _, hu⟩ := hv
    rw [← hu, hm, mul_zero]

/-- Witness for C4 at the concrete conditional process `procC`, a width-1
conditioning tensor, and the all-zero keep mask. -/
theorem C4_cond_flag_witness :
    (procC.use_cond = true) ∧ (∀ i : Fin 1, (cw i).length = 1)
    ∧ ((dm_loss_call procC x0w cw 1 tw epsw maskw0).cond =
          some (apply_uncond_mask maskw0 (dmCondFlag cw))
       ∧ (∀ i, (dmCondFlag cw i).length = 1 + 1)
       ∧ (∀ i, (apply_uncond_mask maskw0 (dmCondFlag cw) i).length = 1 + 1)
       ∧ (∀ i, (dmCondFlag cw i).getLast? = some 1)
       ∧ (∀ i, maskw0 i = 0 →
            ∀ v ∈ apply_uncond_mask maskw0 (dmCondFlag cw) i, v = 0)) :=
  ⟨rfl, fun _ => rfl,
   C4_cond_flag procC x0w cw 1 1 tw epsw maskw0 rfl (fun _ => rfl)⟩

/-- C5 counterexample: the claim fails on the trajectory variant.  At a
concrete process with `use_cond = false`, `DMDenoiseDiffusion.loss` with
`cond = None` fails before the predictor is invoked (line 140 concatenates
the flag onto `cond` regardless of `use_cond`), while the identical call
with a present `cond` succeeds — so the trajectory variant does read and
require `cond` even when the predictor declares `use_cond = false`. -/
theorem C5_no_cond_counterexample :
    procW.use_cond = false
    ∧ dm_loss_callOpt procW x0w none 1 tw epsw maskw = none
    ∧ (dm_loss_callOpt procW x0w (some cw) 1 tw epsw maskw).isSome = true :=
  ⟨rfl, rfl, rfl⟩

/-- C5 amended: when the predictor declares `use_cond = false`, the base
`DenoiseDiffusion.loss` never reads `cond` and never samples the dropout
mask — it passes any `cond` (including `None`) through to the predictor
unchanged, with `xt` and `t` independent of it; the trajectory variant
also never samples the dropout mask when `use_cond = false`, but it still
concatenates the flag onto `cond` unconditionally, so a trajectory call
with `cond = None` fails before the predictor is invoked. -/
theorem C5_no_cond_amended {b bb L : ℕ} {ι κ : Type} (P Q : Process)
    (x0 : Fin b → ι → ℝ) (cond : Option (Fin b → List ℝ))
    (t : Fin b → ℕ) (eps : Fin b → ι → ℝ) (mask : Fin b → ℝ)
    (x02 : Fin bb → Fin L × κ → ℝ) (c2 : Fin bb → List ℝ) (hzn : ℕ)
    (t2 : Fin bb → ℕ) (eps2 : Fin bb → Fin L × κ → ℝ) (mask2 : Fin bb → ℝ)
    (hP : P.use_cond = false) (hQ : Q.use_cond = false) :
    base_loss_call P x0 cond t eps mask =
        some ⟨forward_xt P x0 t eps, t, cond, false, cond⟩
    ∧ (dm_loss_call Q x02 c2 hzn t2 eps2 mask2).dropoutUsed = false
    ∧ dm_loss_callOpt Q x02 none hzn t2 eps2 mask2 = none := by
  refine ⟨?_, ?_, rfl⟩
  · unfold base_loss_call
    simp [hP]
  · unfold dm_loss_call
    simp [hQ]

/-- Witness for the amended C5 at the concrete process `procW`. -/
theorem C5_no_cond_amended_witness :
    (procW.use_cond = false) ∧ (procW.use_cond = false)
    ∧ (base_loss_call procW x0w none tw epsw maskw =
          some ⟨forward_xt procW x0w tw epsw, tw, none, false, none⟩
       ∧ (dm_loss_call procW x0w cw 1 tw epsw maskw).dropoutUsed = false
       ∧ dm_loss_callOpt procW x0w none 1 tw epsw maskw = none) :=
  ⟨rfl, rfl,
   C5_no_cond_amended procW procW x0w none tw epsw maskw x0w cw 1 tw epsw
     maskw rfl rfl⟩

/-- C6: construction fails with the conditioning-configuration error exactly
when the presence of `uncond_prob` disagrees with the predictor's declared
`use_cond` capability; the check happens at construction, before any loss
computation. -/
theorem C6_construction_check (m : EpsModel) (up : Option ℝ) (T : ℕ)
    (lossKind schedKind : String) (linB cosB : ℕ → ℝ) :
    mkDenoiseDiffusion m up T lossKind schedKind linB cosB =
        .error .conditioningCfg
      ↔ up.isSome ≠ m.use_cond := by
  unfold mkDenoiseDiffusion
  by_cases h : up.isSome = m.use_cond
  · simp only [h, if_true]
    constructor
    · intro hcontra
      split_ifs at hcontra
      all_goals simp_all
    · intro hne; exact absurd rfl hne
  · simp [h]

/-- C7 counterexample: the claim fails on the code.  At a concrete call with
sequence length `L = 2` and `preserved_horizon = 5 ≥ 2`,
`DMDenoiseDiffusion.loss` does not fail: the Python slice
`xt[:, :5]` clamps at the sequence length, the call succeeds, and the `xt`
handed to the predictor equals `x0` at every position — the entire sequence
is silently preserved. -/
theorem C7_horizon_counterexample :
    (dm_loss_callOpt procW x0w (some cw) 5 tw epsw maskw).isSome = true
    ∧ Option.map (fun call => call.xt)
        (dm_loss_callOpt procW x0w (some cw) 5 tw epsw maskw) = some x0w := by
  constructor
  · rfl
  · have hu : procW.use_cond = false := rfl
    have hd : ∀ d : Fin 2 × Unit, d.1.val < 5 :=
      fun d => lt_of_lt_of_le d.1.isLt (by norm_num)
    unfold dm_loss_callOpt dm_loss_call
    simp [hu, hd]

/-- C7 amended: when `preserved_horizon ≥ sequence_length`, the call does
not fail fast — the slice clamps, so the call succeeds and silently
preserves the entire sequence: the `xt` handed to the predictor equals `x0`
at every position. -/
theorem C7_horizon_amended {b L : ℕ} {κ : Type} (P : Process)
    (x0 : Fin b → Fin L × κ → ℝ) (c : Fin b → List ℝ) (hzn : ℕ)
    (t : Fin b → ℕ) (eps : Fin b → Fin L × κ → ℝ) (mask : Fin b → ℝ)
    (hL : L ≤ hzn) :
    (dm_loss_callOpt P x0 (some c) hzn t eps mask).isSome = true
    ∧ ∀ i d, (dm_loss_call P x0 c hzn t eps mask).xt i d = x0 i d := by
  refine ⟨rfl, fun i d => ?_⟩
  have hd : d.1.val < hzn := lt_of_lt_of_le d.1.isLt hL
  unfold dm_loss_call
  by_cases hu : P.use_cond <;> simp [hu, hd]

/-- Witness for the amended C7: sequence length 2, horizon 5. -/
theorem C7_horizon_amended_witness :
    (2 ≤ 5)
    ∧ ((dm_loss_callOpt procW x0w (some cw) 5 tw epsw maskw).isSome = true
       ∧ ∀ i d, (dm_loss_call procW x0w cw 5 tw epsw maskw).xt i d =
           x0w i d) :=
  ⟨by norm_num,
   C7_horizon_amended procW x0w cw 5 tw epsw maskw (by norm_num)⟩

/-- C8: the loss reduction returns the mean absolute error of
`pred_eps - eps` for loss kind `l1`, the mean squared error for `l2`, and
the unsupported-loss error for any other kind; the check happens at loss
time, not at construction — construction stores any `loss_type` string and
succeeds. -/
theorem C8_loss_kinds {b : ℕ} {ι : Type} [Fintype ι] (P : Process)
    (pred : (Fin b → ι → ℝ) → (Fin b → ℕ) → Option (Fin b → List ℝ) →
            (Fin b → ι → ℝ))
    (x0 : Fin b → ι → ℝ) (cond : Option (Fin b → List ℝ))
    (t : Fin b → ℕ) (eps : Fin b → ι → ℝ) (mask : Fin b → ℝ)
    (hP : P.use_cond = false) :
    (P.loss_type = "l1" →
      base_loss P pred x0 cond t eps mask = some (.ok
        ((∑ i, ∑ d, |pred (forward_xt P x0 t eps) t cond i d - eps i d|) /
          (b * Fintype.card ι))))
    ∧ (P.loss_type = "l2" →
      base_loss P pred x0 cond t eps mask = some (.ok
        ((∑ i, ∑ d, (pred (forward_xt P x0 t eps) t cond i d - eps i d) ^ 2) /
          (b * Fintype.card ι))))
    ∧ (P.loss_type ≠ "l1" → P.loss_type ≠ "l2" →
      base_loss P pred x0 cond t eps mask =
        some (.error (.unsupportedLoss P.loss_type)))
    ∧ (∀ (m : EpsModel) (up : Option ℝ) (T : ℕ) (linB cosB : ℕ → ℝ),
        up.isSome = m.use_cond →
        mkDenoiseDiffusion m up T P.loss_type "linear" linB cosB =
          .ok ⟨m.use_cond, up, T, P.loss_type, linB⟩) := by
  refine ⟨?_, ?_, ?_, ?_⟩
  · intro h
    unfold base_loss base_loss_call reduce_loss
    simp [hP, h]
  · intro h
    unfold base_loss base_loss_call reduce_loss
    simp [hP, h]
  · intro h1 h2
    unfold base_loss base_loss_call reduce_loss
    simp [hP, h1, h2]
  · intro m up T linB cosB hok
    unfold mkDenoiseDiffusion
    simp [hok]

/-- Witness for C8 at the concrete process `procW` (whose loss kind is
`l2`) with a constant predictor. -/
theorem C8_loss_kinds_witness :
    (procW.use_cond = false)
    ∧ ((procW.loss_type = "l1" →
         base_loss procW predw x0w none tw epsw maskw =
           some (.ok
             ((∑ i, ∑ d,
                 |predw (forward_xt procW x0w tw epsw) tw none i d -
                    epsw i d|) /
               ((1 : ℕ) * Fintype.card (Fin 2 × Unit)))))
       ∧ (procW.loss_type = "l2" →
         base_loss procW predw x0w none tw epsw maskw =
           some (.ok
             ((∑ i, ∑ d,
                 (predw (forward_xt procW x0w tw epsw) tw none i d -
                    epsw i d) ^ 2) /
               ((1 : ℕ) * Fintype.card (Fin 2 × Unit)))))
       ∧ (procW.loss_type ≠ "l1" → procW.loss_type ≠ "l2" →
         base_loss procW predw x0w none tw epsw maskw =
           some (.error (.unsupportedLoss procW.loss_type)))
       ∧ (∀ (m : EpsModel) (up : Option ℝ) (T : ℕ) (linB cosB : ℕ → ℝ),
           up.isSome = m.use_cond →
           mkDenoiseDiffusion m up T procW.loss_type "linear" linB cosB =
             .ok ⟨m.use_cond, up, T, procW.loss_type, linB⟩)) :=
  ⟨rfl, C8_loss_kinds procW predw x0w none tw epsw maskw rfl⟩

/-- C9: with a conditioning-capable predictor, the base
`DenoiseDiffusion.loss` masks the caller's `cond` tensor in place
(`cond *= mask`), so after the call the caller's buffer holds the masked
values (all components 0 for a batch element whose keep bit is 0); the
trajectory variant masks a freshly concatenated tensor and leaves the
caller's `cond` buffer unmodified. -/
theorem C9_in_place_mask {b bb L : ℕ} {ι κ : Type} (P Q : Process)
    (x0 : Fin b → ι → ℝ) (c : Fin b → List ℝ)
    (t : Fin b → ℕ) (eps : Fin b → ι → ℝ) (mask : Fin b → ℝ)
    (x02 : Fin bb → Fin L × κ → ℝ) (c2 : Fin bb → List ℝ) (hzn : ℕ)
    (t2 : Fin bb → ℕ) (eps2 : Fin bb → Fin L × κ → ℝ) (mask2 : Fin bb → ℝ)
    (hP : P.use_cond = true) :
    Option.map (fun call => call.callerCond)
        (base_loss_call P x0 (some c) t eps mask) =
      some (some (apply_uncond_mask mask c))
    ∧ (∀ i, mask i = 0 → ∀ v ∈ apply_uncond_mask mask c i, v = 0)
    ∧ (dm_loss_call Q x02 c2 hzn t2 eps2 mask2).callerCond = some c2 := by
  refine ⟨?_, ?_, ?_⟩
  · unfold base_loss_call
    simp [hP]
  · intro i hm v hv
    simp only [apply_uncond_mask, List.mem_map] at hv
    obtain ⟨u, _, hu⟩ := hv
    rw [← hu, hm, mul_zero]
  · unfold dm_loss_call
    by_cases hu : Q.use_cond <;> simp [hu]

/-- Witness for C9 at the concrete conditional process `procC`. -/
theorem C9_in_place_mask_witness :
    (procC.use_cond = true)
    ∧ (Option.map (fun call => call.callerCond)
          (base_loss_call procC x0w (some cw) tw epsw maskw0) =
        some (some (apply_uncond_mask maskw0 cw))
       ∧ (∀ i, maskw0 i = 0 → ∀ v ∈ apply_uncond_mask maskw0 cw i, v = 0)
       ∧ (dm_loss_call procW x0w cw 1 tw epsw maskw0).callerCond =
           some cw) :=
  ⟨rfl,
   C9_in_place_mask procC procW x0w cw tw epsw maskw0 x0w cw 1 tw epsw
     maskw0 rfl⟩

/-- C10: a call with `cond = None` fails before the predictor is invoked
whenever the cond value is actually used: in the base variant whenever the
predictor declares `use_cond = true` (line 86 multiplies `None` by the
mask), and in the trajectory variant on every call regardless of `use_cond`
(line 140 concatenates the flag onto `None`). -/
theorem C10_none_cond_fails {b bb L : ℕ} {ι κ : Type} (P Q : Process)
    (x0 : Fin b → ι → ℝ) (t : Fin b → ℕ) (eps : Fin b → ι → ℝ)
    (mask : Fin b → ℝ)
    (x02 : Fin bb → Fin L × κ → ℝ) (hzn : ℕ) (t2 : Fin bb → ℕ)
    (eps2 : Fin bb → Fin L × κ → ℝ) (mask2 : Fin bb → ℝ)
    (hP : P.use_cond = true) :
    base_loss_call P x0 none t eps mask = none
    ∧ dm_loss_callOpt Q x02 none hzn t2 eps2 mask2 = none := by
  constructor
  · unfold base_loss_call
    simp [hP]
  · rfl

/-- Witness for C10 at the concrete conditional process `procC` (base) and
the unconditional `procW` (trajectory). -/
theorem C10_none_cond_fails_witness :
    (procC.use_cond = true)
    ∧ (base_loss_call procC x0w none tw epsw maskw = none
       ∧ dm_loss_callOpt procW x0w none 1 tw epsw maskw = none) :=
  ⟨rfl, C10_none_cond_fails procC procW x0w tw epsw maskw x0w 1 tw epsw
    maskw rfl⟩

end DenoiseDiffusionModel
